import Mathlib

set_option linter.unusedVariables false

/-!
Shallow embedding of the pagination widget found in
src/pagination/src/Pagination.jsx: the page-window computation, the
navigation handlers (buttons and keyboard) and the component state
machine, together with proofs of the specified properties.
-/

/-- A rendered pagination item: either a page number or the ellipsis
marker (the string between two windows in the source array). -/
inductive WindowItem where
  | page (n : Int)
  | ellipsis
deriving DecidableEq, Repr

/-- Line 5 of Pagination.jsx: the pages array
built from the pages prop, one entry per page number starting at 1.
A non-positive length yields the empty array. -/
def numberOfPages (pages : Int) : List Int :=
  (List.range pages.toNat).map (fun (i : Nat) => (i : Int) + 1)

/-- Lines 12-30 of Pagination.jsx: the effect that computes the visible
pagination items from the pages prop and the current button. -/
def computeWindow (pages : Int) (current : Int) : List WindowItem :=
  let nums := numberOfPages pages
  let total : Int := (nums.length : Int)
  if total ≤ 7 then
    nums.map WindowItem.page
  else if current ≤ 4 then
    [WindowItem.page 1, WindowItem.page 2, WindowItem.page 3, WindowItem.page 4,
     WindowItem.page 5, WindowItem.ellipsis, WindowItem.page total]
  else if total - 3 ≤ current then
    [WindowItem.page 1, WindowItem.ellipsis, WindowItem.page (total - 4),
     WindowItem.page (total - 3), WindowItem.page (total - 2),
     WindowItem.page (total - 1), WindowItem.page total]
  else
    [WindowItem.page 1, WindowItem.ellipsis, WindowItem.page (current - 1),
     WindowItem.page current, WindowItem.page (current + 1), WindowItem.ellipsis,
     WindowItem.page total]

/-- The numeric page items of a rendered window, in order, ellipses
dropped. -/
def numericItems (l : List WindowItem) : List Int :=
  l.filterMap (fun it =>
    match it with
    | WindowItem.page n => some n
    | WindowItem.ellipsis => none)

lemma length_numberOfPages (pages : Int) :
    (numberOfPages pages).length = pages.toNat := by
  rw [numberOfPages, List.length_map, List.length_range]

lemma computeWindow_eq (pages current : Int) :
    computeWindow pages current =
      if ((pages.toNat : Int)) ≤ 7 then
        (numberOfPages pages).map WindowItem.page
      else if current ≤ 4 then
        [WindowItem.page 1, WindowItem.page 2, WindowItem.page 3, WindowItem.page 4,
         WindowItem.page 5, WindowItem.ellipsis, WindowItem.page (pages.toNat : Int)]
      else if ((pages.toNat : Int)) - 3 ≤ current then
        [WindowItem.page 1, WindowItem.ellipsis, WindowItem.page ((pages.toNat : Int) - 4),
         WindowItem.page ((pages.toNat : Int) - 3), WindowItem.page ((pages.toNat : Int) - 2),
         WindowItem.page ((pages.toNat : Int) - 1), WindowItem.page (pages.toNat : Int)]
      else
        [WindowItem.page 1, WindowItem.ellipsis, WindowItem.page (current - 1),
         WindowItem.page current, WindowItem.page (current + 1), WindowItem.ellipsis,
         WindowItem.page (pages.toNat : Int)] := by
  simp [computeWindow, length_numberOfPages]

/-- C1: for total > 7 and current in range, the window has length 7,
starts with page 1 and ends with page total. -/
theorem window_length_seven_anchors (total current : Int)
    (h7 : 7 < total) (h1 : 1 ≤ current) (h2 : current ≤ total) :
    (computeWindow total current).length = 7 ∧
    (computeWindow total current).head? = some (WindowItem.page 1) ∧
    (computeWindow total current).getLast? = some (WindowItem.page total) := by
  have ht : ((total.toNat : Int)) = total := Int.toNat_of_nonneg (by omega)
  rw [computeWindow_eq, ht]
  split_ifs with hA hB hC
  · omega
  · refine ⟨rfl, rfl, ?_⟩
    simp [List.getLast?]
  · refine ⟨rfl, rfl, ?_⟩
    simp [List.getLast?]
  · refine ⟨rfl, rfl, ?_⟩
    simp [List.getLast?]

theorem window_length_seven_anchors_witness :
    (7 : Int) < 10 ∧ (1 : Int) ≤ 3 ∧ (3 : Int) ≤ 10 ∧
    ((computeWindow 10 3).length = 7 ∧
     (computeWindow 10 3).head? = some (WindowItem.page 1) ∧
     (computeWindow 10 3).getLast? = some (WindowItem.page 10)) :=
  ⟨by decide, by decide, by decide,
   window_length_seven_anchors 10 3 (by decide) (by decide) (by decide)⟩

/-- C2: for 0 ≤ total ≤ 7 the window is exactly the pages 1..total with
no ellipsis, for every current (hence in particular for any current in
range, and the empty sequence when total = 0). -/
theorem window_small_total_all_pages (total current : Int)
    (h0 : 0 ≤ total) (h7 : total ≤ 7) :
    computeWindow total current =
      (List.range total.toNat).map (fun (i : Nat) => WindowItem.page ((i : Int) + 1)) ∧
    WindowItem.ellipsis ∉ computeWindow total current := by
  rw [computeWindow_eq]
  rw [if_pos (by omega)]
  constructor
  · simp [numberOfPages, List.map_map]
  · simp [numberOfPages, List.mem_map]

theorem window_small_total_all_pages_witness :
    (0 : Int) ≤ 5 ∧ (5 : Int) ≤ 7 ∧
    (computeWindow 5 2 =
       (List.range (5 : Int).toNat).map (fun (i : Nat) => WindowItem.page ((i : Int) + 1)) ∧
     WindowItem.ellipsis ∉ computeWindow 5 2) :=
  ⟨by decide, by decide, window_small_total_all_pages 5 2 (by decide) (by decide)⟩

/-- C3: for total > 7 and 1 ≤ current ≤ 4 the window is
1, 2, 3, 4, 5, ellipsis, total. -/
theorem window_near_start (total current : Int)
    (h7 : 7 < total) (h1 : 1 ≤ current) (h4 : current ≤ 4) :
    computeWindow total current =
      [WindowItem.page 1, WindowItem.page 2, WindowItem.page 3, WindowItem.page 4,
       WindowItem.page 5, WindowItem.ellipsis, WindowItem.page total] := by
  have ht : ((total.toNat : Int)) = total := Int.toNat_of_nonneg (by omega)
  rw [computeWindow_eq, ht, if_neg (by omega), if_pos h4]

theorem window_near_start_witness :
    (7 : Int) < 10 ∧ (1 : Int) ≤ 1 ∧ (1 : Int) ≤ 4 ∧
    computeWindow 10 1 =
      [WindowItem.page 1, WindowItem.page 2, WindowItem.page 3, WindowItem.page 4,
       WindowItem.page 5, WindowItem.ellipsis, WindowItem.page 10] :=
  ⟨by decide, by decide, by decide,
   window_near_start 10 1 (by decide) (by decide) (by decide)⟩

/-- C4: for total > 7 and total − 3 ≤ current ≤ total with current > 4
the window is 1, ellipsis, total−4, total−3, total−2, total−1, total. -/
theorem window_near_end (total current : Int)
    (h7 : 7 < total) (hlo : total - 3 ≤ current) (hhi : current ≤ total)
    (h4 : 4 < current) :
    computeWindow total current =
      [WindowItem.page 1, WindowItem.ellipsis, WindowItem.page (total - 4),
       WindowItem.page (total - 3), WindowItem.page (total - 2),
       WindowItem.page (total - 1), WindowItem.page total] := by
  have ht : ((total.toNat : Int)) = total := Int.toNat_of_nonneg (by omega)
  rw [computeWindow_eq, ht, if_neg (by omega), if_neg (by omega), if_pos hlo]

theorem window_near_end_witness :
    (7 : Int) < 10 ∧ (10 : Int) - 3 ≤ 10 ∧ (10 : Int) ≤ 10 ∧ (4 : Int) < 10 ∧
    computeWindow 10 10 =
      [WindowItem.page 1, WindowItem.ellipsis, WindowItem.page 6, WindowItem.page 7,
       WindowItem.page 8, WindowItem.page 9, WindowItem.page 10] :=
  ⟨by decide, by decide, by decide, by decide,
   window_near_end 10 10 (by decide) (by decide) (by decide) (by decide)⟩

/-- C5: for total > 7 and 4 < current < total − 3 the window is
1, ellipsis, current−1, current, current+1, ellipsis, total. -/
theorem window_middle (total current : Int)
    (h7 : 7 < total) (h4 : 4 < current) (hmid : current < total - 3) :
    computeWindow total current =
      [WindowItem.page 1, WindowItem.ellipsis, WindowItem.page (current - 1),
       WindowItem.page current, WindowItem.page (current + 1), WindowItem.ellipsis,
       WindowItem.page total] := by
  have ht : ((total.toNat : Int)) = total := Int.toNat_of_nonneg (by omega)
  rw [computeWindow_eq, ht, if_neg (by omega), if_neg (by omega), if_neg (by omega)]

theorem window_middle_witness :
    (7 : Int) < 10 ∧ (4 : Int) < 5 ∧ (5 : Int) < 10 - 3 ∧
    computeWindow 10 5 =
      [WindowItem.page 1, WindowItem.ellipsis, WindowItem.page 4, WindowItem.page 5,
       WindowItem.page 6, WindowItem.ellipsis, WindowItem.page 10] :=
  ⟨by decide, by decide, by decide,
   window_middle 10 5 (by decide) (by decide) (by decide)⟩

/-- C9: a zero or negative pages prop yields the empty pages array and an
empty window (no item to render); the computation is total, so no
exception can arise from it. -/
theorem nonpositive_pages_empty_window (pages current : Int) (hp : pages ≤ 0) :
    numberOfPages pages = [] ∧ computeWindow pages current = [] := by
  have hz : pages.toNat = 0 := Int.toNat_of_nonpos hp
  have hnum : numberOfPages pages = [] := by
    rw [numberOfPages, hz]
    rfl
  refine ⟨hnum, ?_⟩
  rw [computeWindow_eq, hz, if_pos (by decide), hnum]
  rfl

theorem nonpositive_pages_empty_window_witness :
    (-3 : Int) ≤ 0 ∧ (numberOfPages (-3) = [] ∧ computeWindow (-3) 1 = []) :=
  ⟨by decide, nonpositive_pages_empty_window (-3) 1 (by decide)⟩

lemma page_mem_computeWindow_bounds (pages current n : Int)
    (h : WindowItem.page n ∈ computeWindow pages current) :
    1 ≤ n ∧ n ≤ ((pages.toNat : Int)) := by
  rw [computeWindow_eq] at h
  split_ifs at h with hA hB hC
  · simp only [numberOfPages, List.map_map, List.mem_map, List.mem_range,
      Function.comp] at h
    obtain ⟨i, hi, hin⟩ := h
    have : ((i : Int)) + 1 = n := by
      have := congrArg (fun it => numericItems [it]) hin
      simpa [numericItems] using this
    omega
  · simp only [List.mem_cons, List.not_mem_nil, or_false,
      WindowItem.page.injEq] at h
    rcases h with h | h | h | h | h | h | h <;> first | omega | exact absurd h (by simp)
  · simp only [List.mem_cons, List.not_mem_nil, or_false,
      WindowItem.page.injEq] at h
    rcases h with h | h | h | h | h | h | h <;> first | omega | exact absurd h (by simp)
  · simp only [List.mem_cons, List.not_mem_nil, or_false,
      WindowItem.page.injEq] at h
    rcases h with h | h | h | h | h | h | h <;> first | omega | exact absurd h (by simp)

/-- Component state: the pages prop, the currentButton state variable and
the last value passed to the setCurrentPage callback (none before the
first effect run). -/
structure PaginationState where
  pages : Int
  currentButton : Int
  lastCallback : Option Int
deriving DecidableEq, Repr

/-- Lines 27-29: after currentButton settles, the compute effect runs and
notifies the parent of the current page. -/
def notifyHost (s : PaginationState) : PaginationState :=
  ⟨s.pages, s.currentButton, some s.currentButton⟩

/-- Line 58: the previous-button handler. -/
def goPrev (current : Int) : Int :=
  max 1 (current - 1)

/-- Line 59: the next-button handler. -/
def goNext (pages current : Int) : Int :=
  min (((numberOfPages pages).length : Int)) (current + 1)

/-- The keys the keydown handler distinguishes. -/
inductive Key where
  | arrowLeft
  | arrowRight
  | homeKey
  | endKey
  | other
deriving DecidableEq, Repr

/-- Lines 42-52: the keydown handler, returning the new currentButton. -/
def onKey (pages current : Int) (k : Key) : Int :=
  match k with
  | Key.arrowLeft => max 1 (current - 1)
  | Key.arrowRight => min (((numberOfPages pages).length : Int)) (current + 1)
  | Key.homeKey => 1
  | Key.endKey => ((numberOfPages pages).length : Int)
  | Key.other => current

/-- The user-visible events of the widget. -/
inductive Event where
  | clickPrev
  | clickNext
  | clickPage (p : Int)
  | keydown (k : Key)
  | pagesChange (n : Int)
deriving DecidableEq, Repr

/-- One settled event: the handler updates currentButton (a page-number
click is only possible for a rendered page number), a pages change also
resets currentButton to 1 (lines 33-35), and in every case the compute
effect then fires the callback with the new current page. -/
def step (s : PaginationState) (e : Event) : PaginationState :=
  match e with
  | Event.clickPrev => notifyHost ⟨s.pages, goPrev s.currentButton, s.lastCallback⟩
  | Event.clickNext => notifyHost ⟨s.pages, goNext s.pages s.currentButton, s.lastCallback⟩
  | Event.clickPage p =>
      if WindowItem.page p ∈ computeWindow s.pages s.currentButton then
        notifyHost ⟨s.pages, p, s.lastCallback⟩
      else s
  | Event.keydown k => notifyHost ⟨s.pages, onKey s.pages s.currentButton k, s.lastCallback⟩
  | Event.pagesChange n => notifyHost ⟨n, 1, s.lastCallback⟩

/-- The mounted widget: currentButton starts at 1 (line 7) and the first
effect run notifies the parent. -/
def initState (pages : Int) : PaginationState :=
  notifyHost ⟨pages, 1, none⟩

/-- States reachable from mounting with a given pages prop, under the
data-model constraint that every pages value supplied is positive. -/
inductive Reachable (p0 : Int) : PaginationState → Prop where
  | mounted : Reachable p0 (initState p0)
  | stepped {s : PaginationState} (e : Event) (hs : Reachable p0 s)
      (he : ∀ n, e = Event.pagesChange n → 1 ≤ n) : Reachable p0 (step s e)

lemma reachable_bounds (p0 : Int) (hp0 : 1 ≤ p0) {s : PaginationState}
    (hr : Reachable p0 s) :
    1 ≤ s.currentButton ∧ s.currentButton ≤ s.pages ∧ 1 ≤ s.pages := by
  induction hr with
  | mounted => exact ⟨le_refl 1, hp0, hp0⟩
  | stepped e hs he ih =>
    obtain ⟨ih1, ih2, ih3⟩ := ih
    rename_i t
    have htoNat : (((t.pages).toNat : Int)) = t.pages := Int.toNat_of_nonneg (by omega)
    cases e with
    | clickPrev =>
      simp only [step, notifyHost, goPrev]
      omega
    | clickNext =>
      simp only [step, notifyHost, goNext, length_numberOfPages]
      omega
    | clickPage p =>
      simp only [step]
      split_ifs with hmem
      · have := page_mem_computeWindow_bounds t.pages t.currentButton p hmem
        simp only [notifyHost]
        omega
      · exact ⟨ih1, ih2, ih3⟩
    | keydown k =>
      cases k <;>
        simp only [step, notifyHost, onKey, length_numberOfPages] <;>
        omega
    | pagesChange n =>
      have hn : 1 ≤ n := he n rfl
      simp only [step, notifyHost]
      omega

/-- C6: a pages change resets currentButton to 1 and the callback fires
with 1; and in every reachable state (positive pages inputs, per the data
model) the current page never exceeds the page count. -/
theorem pages_change_resets_and_invariant (p0 : Int) (hp0 : 1 ≤ p0) :
    (∀ (s : PaginationState) (n : Int),
       (step s (Event.pagesChange n)).currentButton = 1 ∧
       (step s (Event.pagesChange n)).lastCallback = some 1) ∧
    (∀ s : PaginationState, Reachable p0 s → s.currentButton ≤ s.pages) := by
  constructor
  · intro s n
    exact ⟨rfl, rfl⟩
  · intro s hr
    exact (reachable_bounds p0 hp0 hr).2.1

theorem pages_change_resets_and_invariant_witness :
    (1 : Int) ≤ 10 ∧
    ((∀ (s : PaginationState) (n : Int),
        (step s (Event.pagesChange n)).currentButton = 1 ∧
        (step s (Event.pagesChange n)).lastCallback = some 1) ∧
     (∀ s : PaginationState, Reachable 10 s → s.currentButton ≤ s.pages)) :=
  ⟨by decide, pages_change_resets_and_invariant 10 (by decide)⟩

/-- C7: the previous-button handler yields max(1, current−1), the
next-button handler yields min(pages, current+1); at current = 1 the
previous button leaves the state unchanged, and from any in-range state
neither fires the callback with an out-of-range value. -/
theorem step_prev_next_clamped (s : PaginationState)
    (hp : 1 ≤ s.pages) (h1 : 1 ≤ s.currentButton) (h2 : s.currentButton ≤ s.pages) :
    (step s Event.clickPrev).currentButton = max 1 (s.currentButton - 1) ∧
    (step s Event.clickNext).currentButton = min s.pages (s.currentButton + 1) ∧
    (s.currentButton = 1 → (step s Event.clickPrev).currentButton = s.currentButton) ∧
    (∀ v : Int, (step s Event.clickPrev).lastCallback = some v →
       1 ≤ v ∧ v ≤ s.pages) ∧
    (∀ v : Int, (step s Event.clickNext).lastCallback = some v →
       1 ≤ v ∧ v ≤ s.pages) := by
  have htoNat : (((s.pages).toNat : Int)) = s.pages := Int.toNat_of_nonneg (by omega)
  refine ⟨rfl, ?_, ?_, ?_, ?_⟩
  · simp only [step, notifyHost, goNext, length_numberOfPages]
    omega
  · intro hone
    simp only [step, notifyHost, goPrev, hone]
    omega
  · intro v hv
    simp only [step, notifyHost, goPrev, Option.some.injEq] at hv
    omega
  · intro v hv
    simp only [step, notifyHost, goNext, length_numberOfPages, Option.some.injEq] at hv
    omega

theorem step_prev_next_clamped_witness :
    (1 : Int) ≤ (PaginationState.mk 10 1 (some 1)).pages ∧
    (1 : Int) ≤ (PaginationState.mk 10 1 (some 1)).currentButton ∧
    (PaginationState.mk 10 1 (some 1)).currentButton ≤ (PaginationState.mk 10 1 (some 1)).pages ∧
    ((step (PaginationState.mk 10 1 (some 1)) Event.clickPrev).currentButton =
       max 1 ((PaginationState.mk 10 1 (some 1)).currentButton - 1) ∧
     (step (PaginationState.mk 10 1 (some 1)) Event.clickNext).currentButton =
       min (PaginationState.mk 10 1 (some 1)).pages
         ((PaginationState.mk 10 1 (some 1)).currentButton + 1) ∧
     ((PaginationState.mk 10 1 (some 1)).currentButton = 1 →
       (step (PaginationState.mk 10 1 (some 1)) Event.clickPrev).currentButton =
         (PaginationState.mk 10 1 (some 1)).currentButton) ∧
     (∀ v : Int, (step (PaginationState.mk 10 1 (some 1)) Event.clickPrev).lastCallback = some v →
        1 ≤ v ∧ v ≤ (PaginationState.mk 10 1 (some 1)).pages) ∧
     (∀ v : Int, (step (PaginationState.mk 10 1 (some 1)) Event.clickNext).lastCallback = some v →
        1 ≤ v ∧ v ≤ (PaginationState.mk 10 1 (some 1)).pages)) :=
  ⟨by decide, by decide, by decide,
   step_prev_next_clamped (PaginationState.mk 10 1 (some 1))
     (by decide) (by decide) (by decide)⟩

/-- C8: with focus on the control, left-arrow performs the prev step,
right-arrow the next step, Home jumps to page 1 and End jumps to the last
page (pages) — in particular End with pages = 10 sets the current page
to 10. -/
theorem keyboard_key_ops (s : PaginationState) (hp : 0 ≤ s.pages) :
    (step s (Event.keydown Key.arrowLeft)).currentButton = max 1 (s.currentButton - 1) ∧
    (step s (Event.keydown Key.arrowRight)).currentButton = min s.pages (s.currentButton + 1) ∧
    (step s (Event.keydown Key.homeKey)).currentButton = 1 ∧
    (step s (Event.keydown Key.endKey)).currentButton = s.pages := by
  have htoNat : (((s.pages).toNat : Int)) = s.pages := Int.toNat_of_nonneg hp
  refine ⟨rfl, ?_, rfl, ?_⟩
  · simp only [step, notifyHost, onKey, length_numberOfPages]
    omega
  · simp only [step, notifyHost, onKey, length_numberOfPages]
    omega

theorem keyboard_key_ops_witness :
    (0 : Int) ≤ (PaginationState.mk 10 4 (some 4)).pages ∧
    ((step (PaginationState.mk 10 4 (some 4)) (Event.keydown Key.arrowLeft)).currentButton =
       max 1 ((PaginationState.mk 10 4 (some 4)).currentButton - 1) ∧
     (step (PaginationState.mk 10 4 (some 4)) (Event.keydown Key.arrowRight)).currentButton =
       min (PaginationState.mk 10 4 (some 4)).pages
         ((PaginationState.mk 10 4 (some 4)).currentButton + 1) ∧
     (step (PaginationState.mk 10 4 (some 4)) (Event.keydown Key.homeKey)).currentButton = 1 ∧
     (step (PaginationState.mk 10 4 (some 4)) (Event.keydown Key.endKey)).currentButton = 10) :=
  ⟨by decide, keyboard_key_ops (PaginationState.mk 10 4 (some 4)) (by decide)⟩

lemma mem_numericItems (l : List WindowItem) (n : Int) :
    n ∈ numericItems l ↔ WindowItem.page n ∈ l := by
  simp only [numericItems, List.mem_filterMap]
  constructor
  · rintro ⟨a, ha, hfa⟩
    cases a with
    | page m =>
      simp only [Option.some.injEq] at hfa
      rw [← hfa]
      exact ha
    | ellipsis => simp at hfa
  · intro h
    exact ⟨WindowItem.page n, h, rfl⟩

lemma numericItems_map_page (l : List Int) :
    numericItems (l.map WindowItem.page) = l := by
  induction l with
  | nil => rfl
  | cons a t ih =>
    simp only [List.map_cons, numericItems, List.filterMap_cons] at ih ⊢
    rw [ih]

lemma pairwise_lt_numberOfPages (pages : Int) :
    (numberOfPages pages).Pairwise (· < ·) := by
  rw [numberOfPages]
  refine List.Pairwise.map _ ?_ (List.pairwise_lt_range pages.toNat)
  intro a b hab
  omega

/-- C10: for total ≥ 1 and current in range, the window contains the
current page as a numeric item, every numeric item lies in the interval
from 1 to total, and the numeric items are strictly increasing. -/
theorem window_current_bounded_increasing (total current : Int)
    (h1t : 1 ≤ total) (h1 : 1 ≤ current) (h2 : current ≤ total) :
    WindowItem.page current ∈ computeWindow total current ∧
    (∀ n ∈ numericItems (computeWindow total current), 1 ≤ n ∧ n ≤ total) ∧
    (numericItems (computeWindow total current)).Pairwise (· < ·) := by
  have ht : ((total.toNat : Int)) = total := Int.toNat_of_nonneg (by omega)
  refine ⟨?_, ?_, ?_⟩
  · rw [computeWindow_eq, ht]
    split_ifs with hA hB hC
    · simp only [numberOfPages, List.map_map, List.mem_map, List.mem_range,
        Function.comp, WindowItem.page.injEq]
      exact ⟨(current - 1).toNat, by omega, by omega⟩
    · simp only [List.mem_cons, List.not_mem_nil, or_false, WindowItem.page.injEq,
        reduceCtorEq, false_or]
      omega
    · simp only [List.mem_cons, List.not_mem_nil, or_false, WindowItem.page.injEq,
        reduceCtorEq, false_or]
      omega
    · simp only [List.mem_cons, List.not_mem_nil, or_false, WindowItem.page.injEq,
        reduceCtorEq, false_or, true_or, or_true]
      try omega
  · intro n hn
    have hb := page_mem_computeWindow_bounds total current n
      ((mem_numericItems (computeWindow total current) n).1 hn)
    omega
  · rw [computeWindow_eq, ht]
    split_ifs with hA hB hC
    · rw [numericItems_map_page]
      exact pairwise_lt_numberOfPages total
    · have hconc :
          numericItems
            [WindowItem.page 1, WindowItem.page 2, WindowItem.page 3, WindowItem.page 4,
             WindowItem.page 5, WindowItem.ellipsis, WindowItem.page total] =
            [1, 2, 3, 4, 5, total] := rfl
      rw [hconc, ← List.chain'_iff_pairwise]
      simp only [List.chain'_cons, List.chain'_singleton, and_true]
      omega
    · have hconc :
          numericItems
            [WindowItem.page 1, WindowItem.ellipsis, WindowItem.page (total - 4),
             WindowItem.page (total - 3), WindowItem.page (total - 2),
             WindowItem.page (total - 1), WindowItem.page total] =
            [1, total - 4, total - 3, total - 2, total - 1, total] := rfl
      rw [hconc, ← List.chain'_iff_pairwise]
      simp only [List.chain'_cons, List.chain'_singleton, and_true]
      omega
    · have hconc :
          numericItems
            [WindowItem.page 1, WindowItem.ellipsis, WindowItem.page (current - 1),
             WindowItem.page current, WindowItem.page (current + 1), WindowItem.ellipsis,
             WindowItem.page total] =
            [1, current - 1, current, current + 1, total] := rfl
      rw [hconc, ← List.chain'_iff_pairwise]
      simp only [List.chain'_cons, List.chain'_singleton, and_true]
      omega

theorem window_current_bounded_increasing_witness :
    (1 : Int) ≤ 10 ∧ (1 : Int) ≤ 6 ∧ (6 : Int) ≤ 10 ∧
    (WindowItem.page 6 ∈ computeWindow 10 6 ∧
     (∀ n ∈ numericItems (computeWindow 10 6), 1 ≤ n ∧ n ≤ 10) ∧
     (numericItems (computeWindow 10 6)).Pairwise (· < ·)) :=
  ⟨by decide, by decide, by decide,
   window_current_bounded_increasing 10 6 (by decide) (by decide) (by decide)⟩
